import Mathlib

/-!
Verification of the meson D-compiler argument-translation layer
(mesonbuild/compilers/d.py and mesonbuild/compilers/mixins/gnu.py).
Command-line tokens are modelled as lists of characters.
-/

abbrev Str := List Char

-- p is a character-by-character prefix of t (Python str.startswith reads
-- startsW t p).
def isPre : Str → Str → Bool
  | [], _ => true
  | _ :: _, [] => false
  | a :: as, b :: bs => a == b && isPre as bs

def startsW (t p : Str) : Bool := isPre p t

def endsW (t p : Str) : Bool := isPre p.reverse t.reverse

-- First index of character c in t (t.length when absent); the source only
-- calls str.index after a startswith guard that guarantees presence.
def strFindIdx (c : Char) : Str → Nat
  | [] => 0
  | x :: xs => if x = c then 0 else strFindIdx c xs + 1

def consHead (x : Char) : List Str → List Str
  | [] => [[x]]
  | y :: ys => (x :: y) :: ys

-- Python str.split with a single-character separator.
def splitOnChar (c : Char) : Str → List Str
  | [] => [[]]
  | x :: xs => if x = c then [] :: splitOnChar c xs else consHead x (splitOnChar c xs)

-- Python sep.join.
def joinSep (c : Char) : List Str → Str
  | [] => []
  | [x] => x
  | x :: y :: ys => x ++ c :: joinSep c (y :: ys)

-- ASCII whitespace as recognized by Python str.strip.
def pySpaceChar (ch : Char) : Bool :=
  ch == ' ' || ch == '\t' || ch == '\n' || ch == '\r' || ch == '\x0b' || ch == '\x0c'

def pyStrip (t : Str) : Str :=
  ((t.dropWhile pySpaceChar).reverse.dropWhile pySpaceChar).reverse

def strLower (t : Str) : Str := t.map Char.toLower

-- Python str.isdigit restricted to ASCII digits.
def pyIsDigit (t : Str) : Bool := !t.isEmpty && t.all Char.isDigit

-- int(...) applied to a digit string.
def strToNat (t : Str) : Nat := t.foldl (fun n ch => n * 10 + (ch.toNat - 48)) 0

-- str(...) applied to an integer (d.py only reaches it with nonnegative
-- levels).
def intToStr (i : Int) : Str :=
  if i < 0 then '-' :: Nat.toDigits 10 i.natAbs else Nat.toDigits 10 i.natAbs

-- posixpath.join for two components.
def pyJoin (a b : Str) : Str :=
  if startsW b ("/".data) then b
  else if a = [] ∨ endsW a ("/".data) then a ++ b
  else a ++ '/' :: b

-- One step of the component scan inside posixpath.normpath.
def npStep (initialSlashes : Nat) (acc : List Str) (comp : Str) : List Str :=
  if comp = [] ∨ comp = (".".data) then acc
  else if comp ≠ ("..".data) ∨ (initialSlashes = 0 ∧ acc = []) ∨ (acc ≠ [] ∧ acc.getLast? = some ("..".data)) then acc ++ [comp]
  else if acc ≠ [] then acc.dropLast
  else acc

-- posixpath.normpath.
def normpath (path : Str) : Str :=
  if path = [] then (".".data)
  else
    let initialSlashes : Nat :=
      if startsW path ("/".data) then
        (if startsW path ("//".data) ∧ ¬ startsW path ("///".data) then 2 else 1)
      else 0
    let comps := splitOnChar '/' path
    let newComps := comps.foldl (npStep initialSlashes) []
    let joined := List.replicate initialSlashes '/' ++ joinSep '/' newComps
    if joined = [] then (".".data) else joined

inductive Platform | windows | osx | other
deriving DecidableEq

-- The two concrete classes that instantiate DmdLikeCompilerMixin; the
-- Windows translation branches on cls is LLVMDCompiler.
inductive DmdLikeClass | llvm | dmd
deriving DecidableEq

-- DmdLikeCompilerMixin.translate_arg_to_windows.
def translate_arg_to_windows (cls : DmdLikeClass) (arg : Str) : List Str :=
  if startsW arg ("-Wl,".data) then
    (splitOnChar ',' (arg.drop (strFindIdx ',' arg + 1))).filterMap (fun la =>
      if startsW la ("--out-implib=".data) then some (("-L=/IMPLIB:".data) ++ pyStrip (la.drop 13)) else none)
  else if startsW arg ("-mscrtlib=".data) then
    let mscrtlib := strLower (arg.drop 10)
    [arg] ++
      (if cls = DmdLikeClass.llvm then
        (if mscrtlib ≠ ("libcmt".data) then [("-L=/NODEFAULTLIB:libcmt".data), ("-L=/NODEFAULTLIB:libvcruntime".data)] else []) ++
        (if startsW mscrtlib ("msvcrt".data) then [("-L=/DEFAULTLIB:legacy_stdio_definitions.lib".data)] else [])
      else [])
  else []

-- DmdLikeCompilerMixin.translate_arg_to_osx.
def translate_arg_to_osx (arg : Str) : List Str :=
  if startsW arg ("-install_name".data) then [("-L=".data) ++ arg] else []

-- The is_windows()/is_osx() dispatch at the top of the token loop of
-- translate_args_to_nongnu.
def osTranslate (cls : DmdLikeClass) (p : Platform) (arg : Str) : List Str :=
  match p with
  | Platform.windows => translate_arg_to_windows cls arg
  | Platform.osx => translate_arg_to_osx arg
  | Platform.other => []

-- The body of the token loop of DmdLikeCompilerMixin.translate_args_to_nongnu:
-- what one input token contributes to dcargs.
def translate_one (cls : DmdLikeClass) (p : Platform) (arg : Str) : List Str :=
  let osargs := osTranslate cls p arg
  if osargs ≠ [] then osargs
  else if arg = ("-pthread".data) then []
  else if startsW arg ("-fstack-protector".data) then []
  else if startsW arg ("-D".data) then []
  else if startsW arg ("-Wl,".data) then
    (splitOnChar ',' (arg.drop (strFindIdx ',' arg + 1))).map (fun la => ("-L=".data) ++ pyStrip la)
  else if startsW arg ("-link-defaultlib".data) || startsW arg ("-linker".data) || startsW arg ("-link-internally".data) || startsW arg ("-linkonce-templates".data) || startsW arg ("-lib".data) then
    [arg]
  else if startsW arg ("-l".data) then [("-L=".data) ++ arg]
  else if startsW arg ("-isystem".data) then
    (if startsW arg ("-isystem=".data) then [("-I=".data) ++ arg.drop 9] else [("-I".data)])
  else if startsW arg ("-L/".data) || startsW arg ("-L./".data) then
    (if endsW arg (".a".data) || endsW arg (".lib".data) then
      (let farg := if startsW arg ("-L=".data) then arg.drop 3 else arg.drop 2
       if farg.length > 0 ∧ startsW farg ("-".data) = false then [("-L=".data) ++ farg]
       else [("-L=".data) ++ arg])
     else [("-L=".data) ++ arg])
  else if startsW arg ("-".data) = false ∧ (endsW arg (".a".data) || endsW arg (".lib".data)) = true then
    [("-L=".data) ++ arg]
  else [arg]

def translate_args_to_nongnu (cls : DmdLikeClass) (p : Platform) (args : List Str) : List Str :=
  args.flatMap (translate_one cls p)

-- A token that matches none of the rewrite or drop rules of
-- translate_args_to_nongnu: it reaches the final pass-through branch.
def matchesNoRule (cls : DmdLikeClass) (p : Platform) (arg : Str) : Prop :=
  osTranslate cls p arg = [] ∧
  arg ≠ ("-pthread".data) ∧
  startsW arg ("-fstack-protector".data) = false ∧
  startsW arg ("-D".data) = false ∧
  startsW arg ("-Wl,".data) = false ∧
  startsW arg ("-link-defaultlib".data) = false ∧
  startsW arg ("-linker".data) = false ∧
  startsW arg ("-link-internally".data) = false ∧
  startsW arg ("-linkonce-templates".data) = false ∧
  startsW arg ("-lib".data) = false ∧
  startsW arg ("-l".data) = false ∧
  startsW arg ("-isystem".data) = false ∧
  startsW arg ("-L/".data) = false ∧
  startsW arg ("-L./".data) = false ∧
  ¬ (startsW arg ("-".data) = false ∧ (endsW arg (".a".data) || endsW arg (".lib".data)) = true)

instance (cls : DmdLikeClass) (p : Platform) (arg : Str) : Decidable (matchesNoRule cls p arg) := by
  unfold matchesNoRule; infer_instance

-- DmdLikeCompilerMixin.compute_parameters_with_absolute_paths, one token.
-- The source tests the original token i in four independent ifs and writes
-- parameter_list[idx]; a later matching if overwrites an earlier one.
def absOneDmd (build_dir i : Str) : Str :=
  let r0 := i
  let r1 := if i.take 3 = ("-I=".data) then i.take 3 ++ normpath (pyJoin build_dir (i.drop 3)) else r0
  let r2 := if i.take 4 = ("-L-L".data) then i.take 4 ++ normpath (pyJoin build_dir (i.drop 4)) else r1
  let r3 := if i.take 5 = ("-L=-L".data) then i.take 5 ++ normpath (pyJoin build_dir (i.drop 5)) else r2
  if i.take 6 = ("-Wl,-L".data) then i.take 6 ++ normpath (pyJoin build_dir (i.drop 6)) else r3

def compute_parameters_dmd (parameter_list : List Str) (build_dir : Str) : List Str :=
  parameter_list.map (absOneDmd build_dir)

-- GnuLikeCompiler.compute_parameters_with_absolute_paths (gnu.py), one token.
def absOneGnu (build_dir i : Str) : Str :=
  if i.take 2 = ("-I".data) ∨ i.take 2 = ("-L".data) then i.take 2 ++ normpath (pyJoin build_dir (i.drop 2)) else i

def compute_parameters_gnu (parameter_list : List Str) (build_dir : Str) : List Str :=
  parameter_list.map (absOneGnu build_dir)

-- A normpath output component is nonempty, not a dot entry, and slash-free.
def goodComp (x : Str) : Prop :=
  x ≠ [] ∧ x ≠ (".".data) ∧ x ≠ ("..".data) ∧ '/' ∉ x

-- Optimization tables (gnu.py gnu_optimization_args, d.py
-- ldc_optimization_args and dmd_optimization_args), keyed by the level
-- strings 0, g, 1, 2, 3, s.
inductive OptLevel | o0 | og | o1 | o2 | o3 | os
deriving DecidableEq

def gnu_optimization_args : OptLevel → List Str
  | OptLevel.o0 => []
  | OptLevel.og => [("-Og".data)]
  | OptLevel.o1 => [("-O1".data)]
  | OptLevel.o2 => [("-O2".data)]
  | OptLevel.o3 => [("-O3".data)]
  | OptLevel.os => [("-Os".data)]

def ldc_optimization_args : OptLevel → List Str
  | OptLevel.o0 => []
  | OptLevel.og => []
  | OptLevel.o1 => [("-O1".data)]
  | OptLevel.o2 => [("-O2".data)]
  | OptLevel.o3 => [("-O3".data)]
  | OptLevel.os => [("-Os".data)]

def dmd_optimization_args : OptLevel → List Str
  | OptLevel.o0 => []
  | OptLevel.og => []
  | OptLevel.o1 => [("-O".data)]
  | OptLevel.o2 => [("-O".data)]
  | OptLevel.o3 => [("-O".data)]
  | OptLevel.os => [("-O".data)]

-- get_pic_args of the four relevant implementations. The host checks
-- is_windows()/is_osx() and compiler_type.is_windows_compiler /
-- is_osx_compiler are modelled by the Platform argument.
def dmdLike_get_pic_args (p : Platform) : List Str :=
  if p = Platform.windows then [] else [("-fPIC".data)]

def dcompiler_get_pic_args (p : Platform) : List Str :=
  if p = Platform.windows then [] else [("-fPIC".data)]

def llvmd_get_pic_args (_p : Platform) : List Str := [("-relocation-model=pic".data)]

def gnuLike_get_pic_args (p : Platform) : List Str :=
  if p = Platform.osx ∨ p = Platform.windows then [] else [("-fPIC".data)]

inductive ColorMode | auto | always | never
deriving DecidableEq

def gnu_color_args : ColorMode → List Str
  | ColorMode.auto => [("-fdiagnostics-color=auto".data)]
  | ColorMode.always => [("-fdiagnostics-color=always".data)]
  | ColorMode.never => [("-fdiagnostics-color=never".data)]

/-- Modelled from the spec: mesonlib.version_compare is not part of the
excerpt; the spec says version gates use semantic-version comparison.
Versions are lists of numeric components compared lexicographically,
missing components reading as zero. verGE v w decides v ≥ w. -/
def verGE : List Nat → List Nat → Bool
  | [], [] => true
  | [], b :: bs => b == 0 && verGE [] bs
  | _ :: _, [] => true
  | a :: as, b :: bs => if a > b then true else if a < b then false else verGE as bs

-- GnuCompiler.get_colorout_args (gnu.py).
def gnu_get_colorout_args (version : List Nat) (colortype : ColorMode) : List Str :=
  if verGE version [4, 9, 0] then gnu_color_args colortype else []

-- GnuDCompiler.get_colorout_args (d.py). The call to the GnuCompiler
-- implementation is evaluated but its value is discarded, exactly as in
-- the source, which falls through to return [].
def gnuD_get_colorout_args (version : List Nat) (colortype : ColorMode) : List Str :=
  let hasColorSupport := verGE version [4, 9]
  let _discarded := if hasColorSupport then gnu_get_colorout_args version colortype else []
  []

-- C runtime selection. cnone stands for the dict key spelled none in the
-- source; from_buildtype is not a key of DCompiler.mscrt_args.
inductive CrtVal | cnone | md | mdd | mt | mtd | from_buildtype
deriving DecidableEq

inductive Buildtype | plain | debug | debugoptimized | release | minsize | custom
deriving DecidableEq

def mscrt_argsD : CrtVal → List Str
  | CrtVal.cnone => [("-mscrtlib=".data)]
  | CrtVal.md => [("-mscrtlib=msvcrt".data)]
  | CrtVal.mdd => [("-mscrtlib=msvcrtd".data)]
  | CrtVal.mt => [("-mscrtlib=libcmt".data)]
  | CrtVal.mtd => [("-mscrtlib=libcmtd".data)]
  | CrtVal.from_buildtype => []

-- DmdLikeCompilerMixin.get_crt_args; the dict membership test
-- crt_val in self.mscrt_args holds exactly when crt_val is not
-- from_buildtype.
def get_crt_args (p : Platform) (crt_val : CrtVal) (buildtype : Buildtype) : Except String (List Str) :=
  if p ≠ Platform.windows then Except.ok []
  else if crt_val ≠ CrtVal.from_buildtype then Except.ok (mscrt_argsD crt_val)
  else match buildtype with
    | Buildtype.plain => Except.ok []
    | Buildtype.debug => Except.ok (mscrt_argsD CrtVal.mdd)
    | Buildtype.debugoptimized => Except.ok (mscrt_argsD CrtVal.md)
    | Buildtype.release => Except.ok (mscrt_argsD CrtVal.md)
    | Buildtype.minsize => Except.ok (mscrt_argsD CrtVal.md)
    | Buildtype.custom => Except.error ("Requested C runtime based on buildtype, but buildtype is \"custom\".")

-- Feature-argument construction (get_feature_args). The three D compiler
-- families and their flag table d_feature_args.
inductive DFamily | gcc | llvm | dmd
deriving DecidableEq

structure FeatFlags where
  unittest : Str
  debug : Str
  version : Str
  import_dir : Str

def d_feature_args : DFamily → FeatFlags
  | DFamily.gcc => ⟨("-funittest".data), ("-fdebug".data), ("-fversion".data), ("-J".data)⟩
  | DFamily.llvm => ⟨("-unittest".data), ("-d-debug".data), ("-d-version".data), ("-J".data)⟩
  | DFamily.dmd => ⟨("-unittest".data), ("-debug".data), ("-version".data), ("-J".data)⟩

-- A debug/versions value: an integer or a string.
inductive DVal
  | int (i : Int)
  | str (t : Str)

-- A kwargs value that may be a single item or a list; the source wraps a
-- non-list into a singleton list.
inductive OneOrMany (α : Type)
  | one (a : α)
  | many (l : List α)

def listify {α : Type} : OneOrMany α → List α
  | OneOrMany.one a => [a]
  | OneOrMany.many l => l

-- An include-directory object exposing get_curdir and get_incdirs.
structure IncDirObj where
  curdir : Str
  incdirs : List Str

-- The kwargs dict: the four recognized keys, plus the names of all other
-- keys in insertion order.
structure FeatureKwargs where
  unittest : Option Bool
  debug : Option (OneOrMany DVal)
  versions : Option (OneOrMany DVal)
  import_dirs : Option (OneOrMany IncDirObj)
  extra : List String

-- The scan over debug/versions values: non-numeric identifier strings each
-- append one FLAG=value token; numeric values only raise the running level.
def levelFold (flag : Str) : List DVal → Int → List Str → Int × List Str
  | [], lvl, acc => (lvl, acc)
  | DVal.int i :: rest, lvl, acc => levelFold flag rest (if i > lvl then i else lvl) acc
  | DVal.str t :: rest, lvl, acc =>
    if pyIsDigit t then levelFold flag rest (if (strToNat t : Int) > lvl then (strToNat t : Int) else lvl) acc
    else levelFold flag rest lvl (acc ++ [flag ++ ("=".data) ++ t])

-- One debug/versions block: run the scan from level -1, then append the
-- folded maximum token when the level is nonnegative.
def featBlock (flag : Str) (vals : List DVal) (res : List Str) : List Str :=
  let p := levelFold flag vals (-1) res
  if p.1 ≥ 0 then p.2 ++ [flag ++ ("=".data) ++ intToStr p.1] else p.2

-- The unittest block of get_feature_args.
def utBlock (flag : Str) (errMsg : String) (u : Option Bool) (res : List Str) : Except String (List Str) :=
  match u with
  | Option.none => Except.ok res
  | Option.some b => if flag = [] then Except.error errMsg else Except.ok (if b then res ++ [flag] else res)

-- The debug and versions blocks of get_feature_args (the source repeats
-- this block verbatim for the two keys, with the corresponding flag).
def dvBlock (flag : Str) (errMsg : String) (v : Option (OneOrMany DVal)) (res : List Str) : Except String (List Str) :=
  match v with
  | Option.none => Except.ok res
  | Option.some vv => if flag = [] then Except.error errMsg else Except.ok (featBlock flag (listify vv) res)

-- The import_dirs block of get_feature_args.
def impBlock (flag : Str) (errMsg : String) (v : Option (OneOrMany IncDirObj)) (build_to_src : Str) (res : List Str) : Except String (List Str) :=
  match v with
  | Option.none => Except.ok res
  | Option.some vv =>
    if flag = [] then Except.error errMsg
    else Except.ok (res ++ (listify vv).flatMap (fun o =>
      o.incdirs.map (fun idir =>
        flag ++ pyJoin build_to_src (if idir ≠ [] ∧ idir ≠ (".".data) then pyJoin o.curdir idir else o.curdir))))

def get_feature_args (fam : DFamily) (kw : FeatureKwargs) (build_to_src : Str) : Except String (List Str) :=
  let flags := d_feature_args fam
  (utBlock flags.unittest ("D compiler does not support the unittest feature.") kw.unittest []).bind (fun res1 =>
  (dvBlock flags.debug ("D compiler does not support conditional debug identifiers.") kw.debug res1).bind (fun res2 =>
  (dvBlock flags.version ("D compiler does not support conditional version identifiers.") kw.versions res2).bind (fun res3 =>
  (impBlock flags.import_dir ("D compiler does not support the string import directories feature.") kw.import_dirs build_to_src res3).bind (fun res4 =>
  if kw.extra = [] then Except.ok res4
  else Except.error (("Unknown D compiler feature(s) selected: ") ++ String.intercalate (", ") kw.extra)))))

-- Declarative reading of the debug/versions blocks, for claim C3: the
-- numeric value of a list entry, the identifier tokens in input order, and
-- the maximum numeric level starting from -1.
def numVal : DVal → Option Int
  | DVal.int i => some i
  | DVal.str t => if pyIsDigit t then some (strToNat t) else none

def idTokens (flag : Str) (l : List DVal) : List Str :=
  l.filterMap (fun v => match v with
    | DVal.int _ => Option.none
    | DVal.str t => if pyIsDigit t then Option.none else some (flag ++ ("=".data) ++ t))

def maxNumLevel (l : List DVal) : Int :=
  l.foldl (fun m v => match numVal v with
    | some n => max m n
    | Option.none => m) (-1)

/-! Helper lemmas about the prefix test. -/

theorem isPre_iff : ∀ (p t : Str), isPre p t = true ↔ ∃ r, t = p ++ r := by
  intro p
  induction p with
  | nil =>
    intro t
    simp [isPre]
  | cons a as ih =>
    intro t
    cases t with
    | nil => simp [isPre]
    | cons b bs =>
      simp only [isPre, Bool.and_eq_true, beq_iff_eq]
      constructor
      · rintro ⟨rfl, h⟩
        obtain ⟨r, rfl⟩ := (ih bs).mp h
        exact ⟨r, rfl⟩
      · rintro ⟨r, hr⟩
        injection hr with h1 h2
        subst h1
        subst h2
        exact ⟨rfl, (ih _).mpr ⟨r, rfl⟩⟩

theorem isPre_trans {a b c : Str} (h1 : isPre a b = true) (h2 : isPre b c = true) : isPre a c = true := by
  obtain ⟨r1, rfl⟩ := (isPre_iff a b).mp h1
  obtain ⟨r2, rfl⟩ := (isPre_iff _ _).mp h2
  exact (isPre_iff a _).mpr ⟨r1 ++ r2, by rw [List.append_assoc]⟩

theorem ne_of_startsW {t c p : Str} (h : startsW t p = true) (hc : startsW c p = false) : t ≠ c := by
  intro e
  rw [e, hc] at h
  exact absurd h (by decide)

theorem ne_of_startsW_rev {t c p : Str} (h : startsW t p = false) (hc : startsW c p = true) : t ≠ c := by
  intro e
  rw [e, hc] at h
  exact absurd h (by decide)

theorem startsW_false_mono {t p q : Str} (hpq : isPre p q = true) (h : startsW t p = false) : startsW t q = false := by
  by_contra hq
  rw [Bool.not_eq_false] at hq
  have h2 : startsW t p = true := isPre_trans hpq hq
  rw [h] at h2
  exact absurd h2 (by decide)

theorem startsW_append (p r : Str) : startsW (p ++ r) p = true := (isPre_iff p _).mpr ⟨r, rfl⟩

/-! Per-token behavior of the argument translator. -/

theorem osT_nil_of_not_dash (cls : DmdLikeClass) (p : Platform) (arg : Str) (h : startsW arg ("-".data) = false) : osTranslate cls p arg = [] := by
  have h1 : startsW arg ("-Wl,".data) = false := startsW_false_mono (by decide) h
  have h2 : startsW arg ("-mscrtlib=".data) = false := startsW_false_mono (by decide) h
  have h3 : startsW arg ("-install_name".data) = false := startsW_false_mono (by decide) h
  cases p
  · show translate_arg_to_windows cls arg = []
    simp [translate_arg_to_windows, h1, h2]
  · show translate_arg_to_osx arg = []
    simp [translate_arg_to_osx, h3]
  · rfl

theorem translate_one_unmatched (cls : DmdLikeClass) (p : Platform) (arg : Str) (h : matchesNoRule cls p arg) : translate_one cls p arg = [arg] := by
  obtain ⟨h1, h2, h3, h4, h5, h6, h7, h8, h9, h10, h11, h12, h13, h14, h15⟩ := h
  simp [translate_one, h1, h2, h3, h4, h5, h6, h7, h8, h9, h10, h11, h12, h13, h14]
  intro hd he
  exact absurd ⟨hd, by rcases he with h | h <;> simp [h]⟩ h15

theorem translate_one_barelib (cls : DmdLikeClass) (p : Platform) (arg : Str) (hd : startsW arg ("-".data) = false) (he : (endsW arg (".a".data) || endsW arg (".lib".data)) = true) : translate_one cls p arg = [("-L=".data) ++ arg] := by
  have h1 := osT_nil_of_not_dash cls p arg hd
  have h2 : arg ≠ ("-pthread".data) := ne_of_startsW_rev hd (by decide)
  have h3 : startsW arg ("-fstack-protector".data) = false := startsW_false_mono (by decide) hd
  have h4 : startsW arg ("-D".data) = false := startsW_false_mono (by decide) hd
  have h5 : startsW arg ("-Wl,".data) = false := startsW_false_mono (by decide) hd
  have h6 : startsW arg ("-link-defaultlib".data) = false := startsW_false_mono (by decide) hd
  have h7 : startsW arg ("-linker".data) = false := startsW_false_mono (by decide) hd
  have h8 : startsW arg ("-link-internally".data) = false := startsW_false_mono (by decide) hd
  have h9 : startsW arg ("-linkonce-templates".data) = false := startsW_false_mono (by decide) hd
  have h10 : startsW arg ("-lib".data) = false := startsW_false_mono (by decide) hd
  have h11 : startsW arg ("-l".data) = false := startsW_false_mono (by decide) hd
  have h12 : startsW arg ("-isystem".data) = false := startsW_false_mono (by decide) hd
  have h13 : startsW arg ("-L/".data) = false := startsW_false_mono (by decide) hd
  have h14 : startsW arg ("-L./".data) = false := startsW_false_mono (by decide) hd
  simp [translate_one, h1, h2, h3, h4, h5, h6, h7, h8, h9, h10, h11, h12, h13, h14, hd, he]

theorem translate_one_wl (cls : DmdLikeClass) (p : Platform) (arg : Str) (hos : osTranslate cls p arg = []) (hw : startsW arg ("-Wl,".data) = true) : translate_one cls p arg = (splitOnChar ',' (arg.drop 4)).map (fun la => ("-L=".data) ++ pyStrip la) := by
  obtain ⟨r, rfl⟩ := (isPre_iff _ _).mp hw
  have hos2 : osTranslate cls p (('-' : Char) :: 'W' :: 'l' :: ',' :: r) = [] := hos
  simp [translate_one, startsW, isPre, strFindIdx, hos2]

theorem translate_one_l (cls : DmdLikeClass) (p : Platform) (arg : Str) (hl : startsW arg ("-l".data) = true) (n1 : startsW arg ("-link-defaultlib".data) = false) (n2 : startsW arg ("-linker".data) = false) (n3 : startsW arg ("-link-internally".data) = false) (n4 : startsW arg ("-linkonce-templates".data) = false) (n5 : startsW arg ("-lib".data) = false) : translate_one cls p arg = [("-L=".data) ++ arg] := by
  obtain ⟨r, rfl⟩ := (isPre_iff _ _).mp hl
  have hwin1 : startsW (('-' : Char) :: 'l' :: r) ("-Wl,".data) = false := rfl
  have hwin2 : startsW (('-' : Char) :: 'l' :: r) ("-mscrtlib=".data) = false := rfl
  have hosx : startsW (('-' : Char) :: 'l' :: r) ("-install_name".data) = false := rfl
  have hos : osTranslate cls p (('-' : Char) :: 'l' :: r) = [] := by
    cases p
    · show translate_arg_to_windows cls _ = []
      simp [translate_arg_to_windows, hwin1, hwin2]
    · show translate_arg_to_osx _ = []
      simp [translate_arg_to_osx, hosx]
    · rfl
  simp [startsW, isPre] at n1 n2 n3 n4 n5
  simp [translate_one, startsW, isPre, hos, n1, n2, n3, n4, n5]

theorem flatMap_mid (cls : DmdLikeClass) (p : Platform) (xs ys : List Str) (t : Str) : translate_args_to_nongnu cls p (xs ++ t :: ys) = translate_args_to_nongnu cls p xs ++ translate_one cls p t ++ translate_args_to_nongnu cls p ys := by
  simp [translate_args_to_nongnu]

/-- Claim C1: to_native_dialect (translate_args_to_nongnu) never silently
deletes a token: on every host platform, an input token matching none of the
rewrite or drop rules appears unchanged, in position, in the output, and a
bare static-library-like filename (no leading dash, suffix .a or .lib) is
never dropped but replaced in position by the single token -L= followed by
that filename. -/
theorem c1_no_silent_token_deletion :
  (∀ (cls : DmdLikeClass) (p : Platform) (xs ys : List Str) (t : Str), matchesNoRule cls p t →
      translate_args_to_nongnu cls p (xs ++ t :: ys) =
        translate_args_to_nongnu cls p xs ++ t :: translate_args_to_nongnu cls p ys) ∧
  (∀ (cls : DmdLikeClass) (p : Platform) (xs ys : List Str) (t : Str),
      startsW t ("-".data) = false → (endsW t (".a".data) || endsW t (".lib".data)) = true →
      translate_args_to_nongnu cls p (xs ++ t :: ys) =
        translate_args_to_nongnu cls p xs ++ (("-L=".data) ++ t) :: translate_args_to_nongnu cls p ys) := by
  constructor
  · intro cls p xs ys t h
    rw [flatMap_mid, translate_one_unmatched cls p t h]
    simp
  · intro cls p xs ys t hd he
    rw [flatMap_mid, translate_one_barelib cls p t hd he]
    simp

theorem c1_no_silent_token_deletion_witness :
  (matchesNoRule DmdLikeClass.llvm Platform.windows ("--verbose".data) ∧
    translate_args_to_nongnu DmdLikeClass.llvm Platform.windows ([("-pthread".data)] ++ ("--verbose".data) :: [("x.a".data)]) =
      translate_args_to_nongnu DmdLikeClass.llvm Platform.windows [("-pthread".data)] ++ ("--verbose".data) :: translate_args_to_nongnu DmdLikeClass.llvm Platform.windows [("x.a".data)]) ∧
  (startsW ("static.a".data) ("-".data) = false ∧ (endsW ("static.a".data) (".a".data) || endsW ("static.a".data) (".lib".data)) = true ∧
    translate_args_to_nongnu DmdLikeClass.dmd Platform.osx ([("-g".data)] ++ ("static.a".data) :: []) =
      translate_args_to_nongnu DmdLikeClass.dmd Platform.osx [("-g".data)] ++ (("-L=".data) ++ ("static.a".data)) :: translate_args_to_nongnu DmdLikeClass.dmd Platform.osx []) :=
  ⟨⟨by decide, c1_no_silent_token_deletion.1 DmdLikeClass.llvm Platform.windows _ _ _ (by decide)⟩,
   ⟨by decide, by decide, c1_no_silent_token_deletion.2 DmdLikeClass.dmd Platform.osx _ _ _ (by decide) (by decide)⟩⟩

/-- Claim C2: a token -Wl,a1,...,an not consumed by a platform-specific
rewrite is replaced in place by the n tokens -L=a1 ... -L=an, each
sub-argument whitespace-stripped and in order, and a token beginning with -l
that does not begin with one of the special linker-control prefixes is
replaced by -L= prepended to the whole token; translating [-lfoo] yields
[-L=-lfoo]. -/
theorem c2_linker_passthrough :
  (∀ (cls : DmdLikeClass) (p : Platform) (xs ys : List Str) (arg : Str),
      osTranslate cls p arg = [] → startsW arg ("-Wl,".data) = true →
      translate_args_to_nongnu cls p (xs ++ arg :: ys) =
        translate_args_to_nongnu cls p xs ++ (splitOnChar ',' (arg.drop 4)).map (fun la => ("-L=".data) ++ pyStrip la) ++ translate_args_to_nongnu cls p ys) ∧
  (∀ (cls : DmdLikeClass) (p : Platform) (xs ys : List Str) (arg : Str),
      startsW arg ("-l".data) = true →
      startsW arg ("-link-defaultlib".data) = false → startsW arg ("-linker".data) = false →
      startsW arg ("-link-internally".data) = false → startsW arg ("-linkonce-templates".data) = false →
      startsW arg ("-lib".data) = false →
      translate_args_to_nongnu cls p (xs ++ arg :: ys) =
        translate_args_to_nongnu cls p xs ++ (("-L=".data) ++ arg) :: translate_args_to_nongnu cls p ys) ∧
  (∀ (cls : DmdLikeClass) (p : Platform),
      translate_args_to_nongnu cls p [("-lfoo".data)] = [("-L=-lfoo".data)]) := by
  refine ⟨?_, ?_, ?_⟩
  · intro cls p xs ys arg hos hw
    rw [flatMap_mid, translate_one_wl cls p arg hos hw]
  · intro cls p xs ys arg hl n1 n2 n3 n4 n5
    rw [flatMap_mid, translate_one_l cls p arg hl n1 n2 n3 n4 n5]
    simp
  · intro cls p
    cases cls <;> cases p <;> decide

theorem c2_linker_passthrough_witness :
  (osTranslate DmdLikeClass.dmd Platform.other ("-Wl,-rpath, /x,y ".data) = [] ∧
    startsW ("-Wl,-rpath, /x,y ".data) ("-Wl,".data) = true ∧
    translate_args_to_nongnu DmdLikeClass.dmd Platform.other ([] ++ ("-Wl,-rpath, /x,y ".data) :: []) =
      translate_args_to_nongnu DmdLikeClass.dmd Platform.other [] ++ (splitOnChar ',' (("-Wl,-rpath, /x,y ".data).drop 4)).map (fun la => ("-L=".data) ++ pyStrip la) ++ translate_args_to_nongnu DmdLikeClass.dmd Platform.other []) ∧
  (startsW ("-lfoo".data) ("-l".data) = true ∧
    translate_args_to_nongnu DmdLikeClass.llvm Platform.windows ([] ++ ("-lfoo".data) :: []) =
      translate_args_to_nongnu DmdLikeClass.llvm Platform.windows [] ++ (("-L=".data) ++ ("-lfoo".data)) :: translate_args_to_nongnu DmdLikeClass.llvm Platform.windows []) :=
  ⟨⟨by decide, by decide, c2_linker_passthrough.1 DmdLikeClass.dmd Platform.other [] [] _ (by decide) (by decide)⟩,
   ⟨by decide, c2_linker_passthrough.2.1 DmdLikeClass.llvm Platform.windows [] [] _ (by decide) (by decide) (by decide) (by decide) (by decide) (by decide)⟩⟩

/-- Claim C8: every input token beginning with -isystem produces exactly one
native include token: the equals form -isystem=path becomes -I=path with the
path preserved, and every other -isystem spelling (including an attached
path) becomes the bare token -I. -/
theorem c8_isystem_translation :
  ∀ (cls : DmdLikeClass) (p : Platform) (arg : Str), startsW arg ("-isystem".data) = true →
    translate_one cls p arg =
      (if startsW arg ("-isystem=".data) then [("-I=".data) ++ arg.drop 9] else [("-I".data)]) := by
  intro cls p arg hi
  obtain ⟨r, rfl⟩ := (isPre_iff _ _).mp hi
  have hwin1 : startsW (('-' : Char) :: 'i' :: 's' :: 'y' :: 's' :: 't' :: 'e' :: 'm' :: r) ("-Wl,".data) = false := rfl
  have hwin2 : startsW (('-' : Char) :: 'i' :: 's' :: 'y' :: 's' :: 't' :: 'e' :: 'm' :: r) ("-mscrtlib=".data) = false := rfl
  have hosx : startsW (('-' : Char) :: 'i' :: 's' :: 'y' :: 's' :: 't' :: 'e' :: 'm' :: r) ("-install_name".data) = false := rfl
  have hos : osTranslate cls p (('-' : Char) :: 'i' :: 's' :: 'y' :: 's' :: 't' :: 'e' :: 'm' :: r) = [] := by
    cases p
    · show translate_arg_to_windows cls _ = []
      simp [translate_arg_to_windows, hwin1, hwin2]
    · show translate_arg_to_osx _ = []
      simp [translate_arg_to_osx, hosx]
    · rfl
  simp [translate_one, startsW, isPre, hos]

theorem c8_isystem_translation_witness :
  (startsW ("-isystem=/usr/include".data) ("-isystem".data) = true ∧
    translate_one DmdLikeClass.dmd Platform.other ("-isystem=/usr/include".data) =
      (if startsW ("-isystem=/usr/include".data) ("-isystem=".data) then [("-I=".data) ++ ("-isystem=/usr/include".data).drop 9] else [("-I".data)])) ∧
  (startsW ("-isystem/usr/include".data) ("-isystem".data) = true ∧
    translate_one DmdLikeClass.llvm Platform.windows ("-isystem/usr/include".data) =
      (if startsW ("-isystem/usr/include".data) ("-isystem=".data) then [("-I=".data) ++ ("-isystem/usr/include".data).drop 9] else [("-I".data)])) :=
  ⟨⟨by decide, c8_isystem_translation DmdLikeClass.dmd Platform.other _ (by decide)⟩,
   ⟨by decide, c8_isystem_translation DmdLikeClass.llvm Platform.windows _ (by decide)⟩⟩

/-! Lemmas about splitOnChar, joinSep and normpath, for claim C9. -/

theorem splitOnChar_ne_nil (c : Char) (t : Str) : splitOnChar c t ≠ [] := by
  cases t with
  | nil => simp [splitOnChar]
  | cons x xs =>
    simp only [splitOnChar]
    split
    · simp
    · cases h : splitOnChar c xs <;> simp [consHead]

theorem noSep_split (c : Char) : ∀ (x : Str), c ∉ x → splitOnChar c x = [x] := by
  intro x
  induction x with
  | nil => intro _; rfl
  | cons a as ih =>
    intro h
    obtain ⟨h1, h2⟩ : ¬ c = a ∧ c ∉ as := by simpa [not_or] using h
    simp only [splitOnChar]
    rw [if_neg (fun e => h1 e.symm), ih h2]
    rfl

theorem split_sep_append (c : Char) : ∀ (x t : Str), c ∉ x → splitOnChar c (x ++ c :: t) = x :: splitOnChar c t := by
  intro x
  induction x with
  | nil =>
    intro t _
    simp [splitOnChar]
  | cons a as ih =>
    intro t h
    obtain ⟨h1, h2⟩ : ¬ c = a ∧ c ∉ as := by simpa [not_or] using h
    simp only [List.cons_append, splitOnChar, List.append_eq]
    rw [if_neg (fun e => h1 e.symm), ih t h2]
    rfl

theorem split_join (c : Char) : ∀ (l : List Str), (∀ x ∈ l, c ∉ x) → l ≠ [] → splitOnChar c (joinSep c l) = l := by
  intro l
  induction l with
  | nil => intro _ h; exact absurd rfl h
  | cons x xs ih =>
    intro hall _
    cases xs with
    | nil => exact noSep_split c x (hall x (by simp))
    | cons y ys =>
      have hjoin : joinSep c (x :: y :: ys) = x ++ c :: joinSep c (y :: ys) := rfl
      rw [hjoin, split_sep_append c x _ (hall x (by simp))]
      rw [ih (fun z hz => hall z (by simp [hz])) (by simp)]

theorem split_replicate (c : Char) : ∀ (n : Nat) (t : Str), splitOnChar c (List.replicate n c ++ t) = List.replicate n [] ++ splitOnChar c t := by
  intro n
  induction n with
  | zero => intro t; simp
  | succ m ih =>
    intro t
    have hstep : splitOnChar c (c :: (List.replicate m c ++ t)) = [] :: splitOnChar c (List.replicate m c ++ t) := by
      simp [splitOnChar]
    simp [List.replicate_succ, hstep, ih]

theorem splitOnChar_no_sep (c : Char) : ∀ (t : Str), ∀ x ∈ splitOnChar c t, c ∉ x := by
  intro t
  induction t with
  | nil =>
    intro x hx
    simp [splitOnChar] at hx
    simp [hx]
  | cons a as ih =>
    intro x hx
    simp only [splitOnChar] at hx
    by_cases hac : a = c
    · rw [if_pos hac] at hx
      rcases List.mem_cons.mp hx with h | h
      · simp [h]
      · exact ih x h
    · rw [if_neg hac] at hx
      cases hsp : splitOnChar c as with
      | nil => exact absurd hsp (splitOnChar_ne_nil c as)
      | cons y ys =>
        rw [hsp] at hx
        simp only [consHead] at hx
        rcases List.mem_cons.mp hx with h | h
        · subst h
          intro hmem
          rcases List.mem_cons.mp hmem with h | h
          · exact hac h.symm
          · exact ih y (by rw [hsp]; exact List.mem_cons_self y ys) h
        · exact ih x (by rw [hsp]; exact List.mem_cons_of_mem y h)

theorem npStep_app (k : Nat) (acc : List Str) (comp : Str) (h1 : comp ≠ []) (h2 : comp ≠ (".".data)) (h3 : comp ≠ ("..".data)) : npStep k acc comp = acc ++ [comp] := by
  simp [npStep, h1, h2, h3]

theorem foldl_npStep_good (k : Nat) : ∀ (l : List Str) (acc : List Str), (∀ x ∈ l, x ≠ [] ∧ x ≠ (".".data) ∧ x ≠ ("..".data)) → List.foldl (npStep k) acc l = acc ++ l := by
  intro l
  induction l with
  | nil => intro acc _; simp
  | cons x xs ih =>
    intro acc hall
    obtain ⟨hx1, hx2, hx3⟩ := hall x (by simp)
    simp only [List.foldl_cons]
    rw [npStep_app k acc x hx1 hx2 hx3, ih _ (fun z hz => hall z (by simp [hz]))]
    simp

theorem foldl_npStep_empties (k : Nat) : ∀ (n : Nat) (acc : List Str), List.foldl (npStep k) acc (List.replicate n []) = acc := by
  intro n
  induction n with
  | zero => intro acc; rfl
  | succ m ih =>
    intro acc
    simp only [List.replicate_succ, List.foldl_cons]
    rw [show npStep k acc [] = acc by simp [npStep], ih]

theorem foldl_npStep_inv (k : Nat) (hk : 1 ≤ k) : ∀ (l : List Str) (acc : List Str), (∀ x ∈ acc, goodComp x) → (∀ x ∈ l, '/' ∉ x) → ∀ x ∈ List.foldl (npStep k) acc l, goodComp x := by
  intro l
  induction l with
  | nil => intro acc hacc _ x hx; exact hacc x hx
  | cons cmp rest ih =>
    intro acc hacc hl
    simp only [List.foldl_cons]
    apply ih _ _ (fun z hz => hl z (List.mem_cons_of_mem cmp hz))
    intro x hx
    by_cases hc1 : (cmp = [] ∨ cmp = (".".data))
    · unfold npStep at hx
      rw [if_pos hc1] at hx
      exact hacc x hx
    · by_cases hc2 : (cmp ≠ ("..".data) ∨ (k = 0 ∧ acc = []) ∨ (acc ≠ [] ∧ acc.getLast? = some ("..".data)))
      · unfold npStep at hx
        rw [if_neg hc1, if_pos hc2] at hx
        rcases List.mem_append.mp hx with h | h
        · exact hacc x h
        · have hxc : x = cmp := by simpa using h
          subst hxc
          obtain ⟨g1, g2⟩ : ¬ x = [] ∧ ¬ x = (".".data) := not_or.mp hc1
          have g3 : x ≠ ("..".data) := by
            rcases hc2 with h | h | h
            · exact h
            · omega
            · have hmem : ("..".data) ∈ acc := by
                obtain ⟨hne, heq⟩ := List.mem_getLast?_eq_getLast (Option.mem_def.mpr h.2)
                rw [heq]
                exact List.getLast_mem hne
              exact absurd rfl ((hacc _ hmem).2.2.1)
          exact ⟨g1, g2, g3, hl x (List.mem_cons_self x rest)⟩
      · unfold npStep at hx
        rw [if_neg hc1, if_neg hc2] at hx
        by_cases hc3 : acc ≠ []
        · rw [if_pos hc3] at hx
          exact hacc x ((List.dropLast_prefix acc).subset hx)
        · rw [if_neg hc3] at hx
          exact hacc x hx

theorem replJoin_ne_nil (k : Nat) (hk : 1 ≤ k) (j : Str) : List.replicate k '/' ++ j ≠ [] := by
  cases k with
  | zero => omega
  | succ m => simp [List.replicate_succ]

theorem normpath_abs_form (p : Str) (hp : startsW p ("/".data) = true) :
    ∃ (k : Nat) (comps : List Str), (k = 1 ∨ k = 2) ∧ (∀ x ∈ comps, goodComp x) ∧
      normpath p = List.replicate k '/' ++ joinSep '/' comps := by
  have hne : p ≠ [] := by
    intro e
    rw [e] at hp
    exact absurd hp (by decide)
  cases hA : startsW p ("//".data) with
  | false =>
    refine ⟨1, (splitOnChar '/' p).foldl (npStep 1) [], Or.inl rfl, ?_, ?_⟩
    · intro x hx
      exact foldl_npStep_inv 1 (by omega) _ [] (by simp) (splitOnChar_no_sep '/' p) x hx
    · unfold normpath
      rw [if_neg hne]
      simp [hp, hA]
  | true =>
    cases hB : startsW p ("///".data) with
    | false =>
      refine ⟨2, (splitOnChar '/' p).foldl (npStep 2) [], Or.inr rfl, ?_, ?_⟩
      · intro x hx
        exact foldl_npStep_inv 2 (by omega) _ [] (by simp) (splitOnChar_no_sep '/' p) x hx
      · unfold normpath
        rw [if_neg hne]
        simp [hp, hA, hB]
    | true =>
      refine ⟨1, (splitOnChar '/' p).foldl (npStep 1) [], Or.inl rfl, ?_, ?_⟩
      · intro x hx
        exact foldl_npStep_inv 1 (by omega) _ [] (by simp) (splitOnChar_no_sep '/' p) x hx
      · unfold normpath
        rw [if_neg hne]
        simp [hp, hA, hB]

theorem normpath_canon (k : Nat) (comps : List Str) (hk : k = 1 ∨ k = 2) (hc : ∀ x ∈ comps, goodComp x) :
    normpath (List.replicate k '/' ++ joinSep '/' comps) = List.replicate k '/' ++ joinSep '/' comps := by
  cases comps with
  | nil => rcases hk with rfl | rfl <;> decide
  | cons c0 cs =>
    obtain ⟨g1, _, _, g4⟩ := hc c0 (List.mem_cons_self c0 cs)
    obtain ⟨d, ds0, rfl⟩ : ∃ d ds0, c0 = d :: ds0 := by
      cases c0 with
      | nil => exact absurd rfl g1
      | cons d ds0 => exact ⟨d, ds0, rfl⟩
    have hd : d ≠ '/' := fun e => g4 (by rw [← e]; exact List.mem_cons_self d ds0)
    have hbeq : ('/' == d) = false := by
      rw [beq_eq_false_iff_ne]
      exact fun e => hd e.symm
    obtain ⟨jt, hj⟩ : ∃ jt, joinSep '/' ((d :: ds0) :: cs) = d :: jt := by
      cases cs with
      | nil => exact ⟨ds0, rfl⟩
      | cons y ys => exact ⟨ds0 ++ '/' :: joinSep '/' (y :: ys), rfl⟩
    have hnosep : ∀ x ∈ (d :: ds0) :: cs, '/' ∉ x := fun x hx => (hc x hx).2.2.2
    have hgoods : ∀ x ∈ (d :: ds0) :: cs, x ≠ [] ∧ x ≠ (".".data) ∧ x ≠ ("..".data) :=
      fun x hx => ⟨(hc x hx).1, (hc x hx).2.1, (hc x hx).2.2.1⟩
    rcases hk with rfl | rfl
    · have hqne : List.replicate 1 '/' ++ joinSep '/' ((d :: ds0) :: cs) ≠ [] := replJoin_ne_nil 1 (by omega) _
      have hs1 : startsW (List.replicate 1 '/' ++ joinSep '/' ((d :: ds0) :: cs)) ("/".data) = true := by
        rw [hj]
        rfl
      have hs2 : startsW (List.replicate 1 '/' ++ joinSep '/' ((d :: ds0) :: cs)) ("//".data) = false := by
        rw [hj]
        show isPre ('/' :: '/' :: []) ('/' :: d :: jt) = false
        simp [isPre, hbeq]
      have hsplit : splitOnChar '/' (List.replicate 1 '/' ++ joinSep '/' ((d :: ds0) :: cs)) = List.replicate 1 [] ++ ((d :: ds0) :: cs) := by
        rw [split_replicate, split_join '/' _ hnosep (by simp)]
      have hfold : List.foldl (npStep 1) [] (List.replicate 1 [] ++ ((d :: ds0) :: cs)) = (d :: ds0) :: cs := by
        rw [List.foldl_append, foldl_npStep_empties, foldl_npStep_good 1 _ [] hgoods]
        simp
      unfold normpath
      rw [if_neg hqne]
      simp only [hs1, hs2, if_true, ite_true, eq_self_iff_true, Bool.false_eq_true, false_and, if_false, ite_false]
      rw [hsplit, hfold, if_neg hqne]
    · have hqne : List.replicate 2 '/' ++ joinSep '/' ((d :: ds0) :: cs) ≠ [] := replJoin_ne_nil 2 (by omega) _
      have hs1 : startsW (List.replicate 2 '/' ++ joinSep '/' ((d :: ds0) :: cs)) ("/".data) = true := by
        rw [hj]
        rfl
      have hs2 : startsW (List.replicate 2 '/' ++ joinSep '/' ((d :: ds0) :: cs)) ("//".data) = true := by
        rw [hj]
        rfl
      have hs3 : startsW (List.replicate 2 '/' ++ joinSep '/' ((d :: ds0) :: cs)) ("///".data) = false := by
        rw [hj]
        show isPre ('/' :: '/' :: '/' :: []) ('/' :: '/' :: d :: jt) = false
        simp [isPre, hbeq]
      have hsplit : splitOnChar '/' (List.replicate 2 '/' ++ joinSep '/' ((d :: ds0) :: cs)) = List.replicate 2 [] ++ ((d :: ds0) :: cs) := by
        rw [split_replicate, split_join '/' _ hnosep (by simp)]
      have hfold : List.foldl (npStep 2) [] (List.replicate 2 [] ++ ((d :: ds0) :: cs)) = (d :: ds0) :: cs := by
        rw [List.foldl_append, foldl_npStep_empties, foldl_npStep_good 2 _ [] hgoods]
        simp
      unfold normpath
      rw [if_neg hqne]
      simp only [hs1, hs2, hs3, if_true, ite_true, eq_self_iff_true, Bool.false_eq_true, not_false_iff, and_self]
      rw [hsplit, hfold, if_neg hqne]

theorem normpath_abs_startsW (p : Str) (hp : startsW p ("/".data) = true) : startsW (normpath p) ("/".data) = true := by
  obtain ⟨k, comps, hk, _, hform⟩ := normpath_abs_form p hp
  rw [hform]
  rcases hk with rfl | rfl
  · rfl
  · rfl

theorem normpath_idem_abs (p : Str) (hp : startsW p ("/".data) = true) : normpath (normpath p) = normpath p := by
  obtain ⟨k, comps, hk, hc, hform⟩ := normpath_abs_form p hp
  rw [hform, normpath_canon k comps hk hc]

theorem pyJoin_absR (a b : Str) (h : startsW b ("/".data) = true) : pyJoin a b = b := by
  simp [pyJoin, h]

theorem pyJoin_absL (a b : Str) (h : startsW a ("/".data) = true) : startsW (pyJoin a b) ("/".data) = true := by
  obtain ⟨r, rfl⟩ := (isPre_iff _ _).mp h
  unfold pyJoin
  split
  · assumption
  · split
    · rfl
    · rfl

theorem take_exact (p q : Str) (n : Nat) (h : p.length = n) : (p ++ q).take n = p := by
  rw [← h]
  exact List.take_left p q

theorem drop_exact (p q : Str) (n : Nat) (h : p.length = n) : (p ++ q).drop n = q := by
  rw [← h]
  exact List.drop_left p q

theorem excl34 (x : Str) (h3 : x.take 3 = ("-I=".data)) (h4 : x.take 4 = ("-L-L".data)) : False := by
  have h := congrArg (List.take 3) h4
  rw [List.take_take] at h
  simp [h3] at h

theorem excl35 (x : Str) (h3 : x.take 3 = ("-I=".data)) (h5 : x.take 5 = ("-L=-L".data)) : False := by
  have h := congrArg (List.take 3) h5
  rw [List.take_take] at h
  simp [h3] at h

theorem excl36 (x : Str) (h3 : x.take 3 = ("-I=".data)) (h6 : x.take 6 = ("-Wl,-L".data)) : False := by
  have h := congrArg (List.take 3) h6
  rw [List.take_take] at h
  simp [h3] at h

theorem excl45 (x : Str) (h4 : x.take 4 = ("-L-L".data)) (h5 : x.take 5 = ("-L=-L".data)) : False := by
  have h := congrArg (List.take 4) h5
  rw [List.take_take] at h
  simp [h4] at h

theorem excl46 (x : Str) (h4 : x.take 4 = ("-L-L".data)) (h6 : x.take 6 = ("-Wl,-L".data)) : False := by
  have h := congrArg (List.take 4) h6
  rw [List.take_take] at h
  simp [h4] at h

theorem excl56 (x : Str) (h5 : x.take 5 = ("-L=-L".data)) (h6 : x.take 6 = ("-Wl,-L".data)) : False := by
  have h := congrArg (List.take 5) h6
  rw [List.take_take] at h
  simp [h5] at h

theorem absOneDmd_none (bd i : Str) (c3 : i.take 3 ≠ ("-I=".data)) (c4 : i.take 4 ≠ ("-L-L".data)) (c5 : i.take 5 ≠ ("-L=-L".data)) (c6 : i.take 6 ≠ ("-Wl,-L".data)) : absOneDmd bd i = i := by
  simp [absOneDmd, c3, c4, c5, c6]

theorem absOneDmd_m3 (bd i : Str) (h : i.take 3 = ("-I=".data)) : absOneDmd bd i = ("-I=".data) ++ normpath (pyJoin bd (i.drop 3)) := by
  have c4 : i.take 4 ≠ ("-L-L".data) := fun e => excl34 i h e
  have c5 : i.take 5 ≠ ("-L=-L".data) := fun e => excl35 i h e
  have c6 : i.take 6 ≠ ("-Wl,-L".data) := fun e => excl36 i h e
  simp [absOneDmd, h, c4, c5, c6]

theorem absOneDmd_m4 (bd i : Str) (h : i.take 4 = ("-L-L".data)) : absOneDmd bd i = ("-L-L".data) ++ normpath (pyJoin bd (i.drop 4)) := by
  have c5 : i.take 5 ≠ ("-L=-L".data) := fun e => excl45 i h e
  have c6 : i.take 6 ≠ ("-Wl,-L".data) := fun e => excl46 i h e
  simp [absOneDmd, h, c5, c6]

theorem absOneDmd_m5 (bd i : Str) (h : i.take 5 = ("-L=-L".data)) : absOneDmd bd i = ("-L=-L".data) ++ normpath (pyJoin bd (i.drop 5)) := by
  have c6 : i.take 6 ≠ ("-Wl,-L".data) := fun e => excl56 i h e
  simp [absOneDmd, h, c6]

theorem absOneDmd_m6 (bd i : Str) (h : i.take 6 = ("-Wl,-L".data)) : absOneDmd bd i = ("-Wl,-L".data) ++ normpath (pyJoin bd (i.drop 6)) := by
  simp [absOneDmd, h]

theorem absOneGnu_none (bd i : Str) (h1 : i.take 2 ≠ ("-I".data)) (h2 : i.take 2 ≠ ("-L".data)) : absOneGnu bd i = i := by
  simp [absOneGnu, h1, h2]

theorem absOneGnu_mI (bd i : Str) (h : i.take 2 = ("-I".data)) : absOneGnu bd i = ("-I".data) ++ normpath (pyJoin bd (i.drop 2)) := by
  simp [absOneGnu, h]

theorem absOneGnu_mL (bd i : Str) (h : i.take 2 = ("-L".data)) : absOneGnu bd i = ("-L".data) ++ normpath (pyJoin bd (i.drop 2)) := by
  simp [absOneGnu, h]

theorem normJoin_abs (bd : Str) (hbd : startsW bd ("/".data) = true) (x : Str) : startsW (normpath (pyJoin bd x)) ("/".data) = true :=
  normpath_abs_startsW _ (pyJoin_absL bd x hbd)

theorem normJoin_fix (bd : Str) (hbd : startsW bd ("/".data) = true) (x : Str) : normpath (pyJoin bd (normpath (pyJoin bd x))) = normpath (pyJoin bd x) := by
  rw [pyJoin_absR bd _ (normJoin_abs bd hbd x), normpath_idem_abs _ (pyJoin_absL bd x hbd)]

theorem absOneDmd_idem (bd i : Str) (hbd : startsW bd ("/".data) = true) : absOneDmd bd (absOneDmd bd i) = absOneDmd bd i := by
  by_cases c6 : i.take 6 = ("-Wl,-L".data)
  · rw [absOneDmd_m6 bd i c6, absOneDmd_m6 bd _ (take_exact ("-Wl,-L".data) _ 6 rfl), drop_exact ("-Wl,-L".data) _ 6 rfl, normJoin_fix bd hbd]
  · by_cases c5 : i.take 5 = ("-L=-L".data)
    · rw [absOneDmd_m5 bd i c5, absOneDmd_m5 bd _ (take_exact ("-L=-L".data) _ 5 rfl), drop_exact ("-L=-L".data) _ 5 rfl, normJoin_fix bd hbd]
    · by_cases c4 : i.take 4 = ("-L-L".data)
      · rw [absOneDmd_m4 bd i c4, absOneDmd_m4 bd _ (take_exact ("-L-L".data) _ 4 rfl), drop_exact ("-L-L".data) _ 4 rfl, normJoin_fix bd hbd]
      · by_cases c3 : i.take 3 = ("-I=".data)
        · rw [absOneDmd_m3 bd i c3, absOneDmd_m3 bd _ (take_exact ("-I=".data) _ 3 rfl), drop_exact ("-I=".data) _ 3 rfl, normJoin_fix bd hbd]
        · rw [absOneDmd_none bd i c3 c4 c5 c6]
          exact absOneDmd_none bd i c3 c4 c5 c6

theorem absOneGnu_idem (bd i : Str) (hbd : startsW bd ("/".data) = true) : absOneGnu bd (absOneGnu bd i) = absOneGnu bd i := by
  by_cases cI : i.take 2 = ("-I".data)
  · rw [absOneGnu_mI bd i cI, absOneGnu_mI bd _ (take_exact ("-I".data) _ 2 rfl), drop_exact ("-I".data) _ 2 rfl, normJoin_fix bd hbd]
  · by_cases cL : i.take 2 = ("-L".data)
    · rw [absOneGnu_mL bd i cL, absOneGnu_mL bd _ (take_exact ("-L".data) _ 2 rfl), drop_exact ("-L".data) _ 2 rfl, normJoin_fix bd hbd]
    · rw [absOneGnu_none bd i cI cL]
      exact absOneGnu_none bd i cI cL

/-- Claim C9: compute_parameters_with_absolute_paths is idempotent for a
fixed absolute build directory, in both the dmd-like (d.py) and the
GNU-like (gnu.py) variants; tokens without a recognized path-flag prefix
are returned unchanged, and token order is preserved (the transforms map
each token in place). -/
theorem c9_absolutize_idempotent :
  (∀ (params : List Str) (bd : Str), startsW bd ("/".data) = true →
    compute_parameters_dmd (compute_parameters_dmd params bd) bd = compute_parameters_dmd params bd) ∧
  (∀ (params : List Str) (bd : Str), startsW bd ("/".data) = true →
    compute_parameters_gnu (compute_parameters_gnu params bd) bd = compute_parameters_gnu params bd) ∧
  (∀ (bd i : Str), i.take 3 ≠ ("-I=".data) → i.take 4 ≠ ("-L-L".data) → i.take 5 ≠ ("-L=-L".data) → i.take 6 ≠ ("-Wl,-L".data) → absOneDmd bd i = i) ∧
  (∀ (bd i : Str), i.take 2 ≠ ("-I".data) → i.take 2 ≠ ("-L".data) → absOneGnu bd i = i) := by
  refine ⟨?_, ?_, absOneDmd_none, absOneGnu_none⟩
  · intro params bd h
    induction params with
    | nil => rfl
    | cons a as ih =>
      show absOneDmd bd (absOneDmd bd a) :: ((as.map (absOneDmd bd)).map (absOneDmd bd)) = absOneDmd bd a :: as.map (absOneDmd bd)
      rw [absOneDmd_idem bd a h]
      exact congrArg _ ih
  · intro params bd h
    induction params with
    | nil => rfl
    | cons a as ih =>
      show absOneGnu bd (absOneGnu bd a) :: ((as.map (absOneGnu bd)).map (absOneGnu bd)) = absOneGnu bd a :: as.map (absOneGnu bd)
      rw [absOneGnu_idem bd a h]
      exact congrArg _ ih

theorem c9_absolutize_idempotent_witness :
  (startsW ("/bd".data) ("/".data) = true ∧
    compute_parameters_dmd (compute_parameters_dmd [("-I=rel/x".data), ("plain".data)] ("/bd".data)) ("/bd".data) =
      compute_parameters_dmd [("-I=rel/x".data), ("plain".data)] ("/bd".data)) ∧
  (compute_parameters_gnu (compute_parameters_gnu [("-Irel".data), ("-L/abs".data)] ("/bd".data)) ("/bd".data) =
      compute_parameters_gnu [("-Irel".data), ("-L/abs".data)] ("/bd".data)) ∧
  (absOneDmd ("/bd".data) ("plain".data) = ("plain".data)) ∧
  (absOneGnu ("/bd".data) ("plain".data) = ("plain".data)) :=
  ⟨⟨by decide, c9_absolutize_idempotent.1 _ _ (by decide)⟩,
   c9_absolutize_idempotent.2.1 _ _ (by decide),
   c9_absolutize_idempotent.2.2.1 _ _ (by decide) (by decide) (by decide) (by decide),
   c9_absolutize_idempotent.2.2.2 _ _ (by decide) (by decide)⟩

/-! Feature-argument lemmas for claims C3 and C7. -/

theorem ifmax (m n : Int) : (if n > m then n else m) = max m n := by
  rcases le_or_lt n m with h | h
  · rw [if_neg (not_lt.mpr h), max_eq_left h]
  · rw [if_pos h, max_eq_right (le_of_lt h)]

theorem levelFold_eq (flag : Str) : ∀ (l : List DVal) (lvl : Int) (acc : List Str),
    levelFold flag l lvl acc =
      (l.foldl (fun m v => match numVal v with
        | some n => max m n
        | Option.none => m) lvl, acc ++ idTokens flag l) := by
  intro l
  induction l with
  | nil => intro lvl acc; simp [levelFold, idTokens]
  | cons v rest ih =>
    intro lvl acc
    cases v with
    | int i =>
      simp only [levelFold, List.foldl_cons]
      rw [ih, ifmax]
      simp [numVal, idTokens]
    | str t =>
      by_cases hd : pyIsDigit t = true
      · simp only [levelFold, hd, if_true, List.foldl_cons]
        rw [ih, ifmax]
        simp [numVal, idTokens, hd]
      · simp only [levelFold, List.foldl_cons]
        rw [if_neg hd, ih]
        simp [numVal, idTokens, hd, List.append_assoc]

theorem featBlock_eq (flag : Str) (vals : List DVal) (res : List Str) :
    featBlock flag vals res = res ++ idTokens flag vals ++ (if maxNumLevel vals ≥ 0 then [flag ++ ("=".data) ++ intToStr (maxNumLevel vals)] else []) := by
  unfold featBlock maxNumLevel
  rw [levelFold_eq]
  by_cases h : (vals.foldl (fun m v => match numVal v with
        | some n => max m n
        | Option.none => m) (-1) : Int) ≥ 0
  · simp [h, List.append_assoc]
  · simp [h]

/-- Claim C3: for every family, each non-numeric debug (or versions) value
emits one FLAG=identifier token, in input order; all numeric values (ints or
digit strings) are folded to their maximum, and exactly one trailing
FLAG=max token is appended when that maximum is nonnegative; numeric values
never emit individual tokens, so debug [1, 3, foo] yields exactly
[FLAG=foo, FLAG=3]. -/
theorem c3_feature_level_folding :
  (∀ (fam : DFamily) (vals : OneOrMany DVal) (b2s : Str),
    get_feature_args fam ⟨Option.none, Option.some vals, Option.none, Option.none, []⟩ b2s =
      Except.ok (idTokens (d_feature_args fam).debug (listify vals) ++
        (if maxNumLevel (listify vals) ≥ 0 then [(d_feature_args fam).debug ++ ("=".data) ++ intToStr (maxNumLevel (listify vals))] else []))) ∧
  (∀ (fam : DFamily) (vals : OneOrMany DVal) (b2s : Str),
    get_feature_args fam ⟨Option.none, Option.none, Option.some vals, Option.none, []⟩ b2s =
      Except.ok (idTokens (d_feature_args fam).version (listify vals) ++
        (if maxNumLevel (listify vals) ≥ 0 then [(d_feature_args fam).version ++ ("=".data) ++ intToStr (maxNumLevel (listify vals))] else []))) ∧
  (∀ (fam : DFamily) (b2s : Str),
    get_feature_args fam ⟨Option.none, Option.some (OneOrMany.many [DVal.int 1, DVal.int 3, DVal.str ("foo".data)]), Option.none, Option.none, []⟩ b2s =
      Except.ok [(d_feature_args fam).debug ++ ("=foo".data), (d_feature_args fam).debug ++ ("=3".data)]) := by
  refine ⟨?_, ?_, ?_⟩
  · intro fam vals b2s
    have hflag : ¬ (d_feature_args fam).debug = [] := by cases fam <;> decide
    simp [get_feature_args, utBlock, dvBlock, impBlock, Except.bind, hflag, featBlock_eq]
  · intro fam vals b2s
    have hflag : ¬ (d_feature_args fam).version = [] := by cases fam <;> decide
    simp [get_feature_args, utBlock, dvBlock, impBlock, Except.bind, hflag, featBlock_eq]
  · intro fam b2s
    cases fam <;> rfl

theorem utBlock_ok (flag : Str) (msg : String) (hf : flag ≠ []) (u : Option Bool) (res : List Str) : ∃ v, utBlock flag msg u res = Except.ok v := by
  cases u with
  | none => exact ⟨res, rfl⟩
  | some b =>
    refine ⟨if b then res ++ [flag] else res, ?_⟩
    simp [utBlock, hf]

theorem dvBlock_ok (flag : Str) (msg : String) (hf : flag ≠ []) (v : Option (OneOrMany DVal)) (res : List Str) : ∃ w, dvBlock flag msg v res = Except.ok w := by
  cases v with
  | none => exact ⟨res, rfl⟩
  | some vv =>
    refine ⟨featBlock flag (listify vv) res, ?_⟩
    simp [dvBlock, hf]

theorem impBlock_ok (flag : Str) (msg : String) (hf : flag ≠ []) (v : Option (OneOrMany IncDirObj)) (b2s : Str) (res : List Str) : ∃ w, impBlock flag msg v b2s res = Except.ok w := by
  cases v with
  | none => exact ⟨res, rfl⟩
  | some vv =>
    refine ⟨res ++ (listify vv).flatMap (fun o =>
      o.incdirs.map (fun idir =>
        flag ++ pyJoin b2s (if idir ≠ [] ∧ idir ≠ (".".data) then pyJoin o.curdir idir else o.curdir))), ?_⟩
    simp [impBlock, hf]

/-- Claim C7: get_feature_args consumes exactly the keys unittest, debug,
versions and import_dirs; when any other key is present it raises, after
processing, one error naming all remaining unrecognized keys in a single
message, and it never raises that error when only recognized keys are
present. -/
theorem c7_unknown_keys :
  ∀ (fam : DFamily) (kw : FeatureKwargs) (b2s : Str),
    (kw.extra = [] → ∃ r, get_feature_args fam kw b2s = Except.ok r) ∧
    (kw.extra ≠ [] → get_feature_args fam kw b2s =
      Except.error (("Unknown D compiler feature(s) selected: ") ++ String.intercalate (", ") kw.extra)) := by
  intro fam kw b2s
  have h1 : (d_feature_args fam).unittest ≠ [] := by cases fam <;> decide
  have h2 : (d_feature_args fam).debug ≠ [] := by cases fam <;> decide
  have h3 : (d_feature_args fam).version ≠ [] := by cases fam <;> decide
  have h4 : (d_feature_args fam).import_dir ≠ [] := by cases fam <;> decide
  obtain ⟨v1, e1⟩ := utBlock_ok _ ("D compiler does not support the unittest feature.") h1 kw.unittest []
  obtain ⟨v2, e2⟩ := dvBlock_ok _ ("D compiler does not support conditional debug identifiers.") h2 kw.debug v1
  obtain ⟨v3, e3⟩ := dvBlock_ok _ ("D compiler does not support conditional version identifiers.") h3 kw.versions v2
  obtain ⟨v4, e4⟩ := impBlock_ok _ ("D compiler does not support the string import directories feature.") h4 kw.import_dirs b2s v3
  constructor
  · intro he
    refine ⟨v4, ?_⟩
    simp [get_feature_args, Except.bind, e1, e2, e3, e4, he]
  · intro he
    simp [get_feature_args, Except.bind, e1, e2, e3, e4, he]

theorem c7_unknown_keys_witness :
  (∃ r, get_feature_args DFamily.dmd ⟨Option.some true, Option.none, Option.none, Option.none, []⟩ ("..".data) = Except.ok r) ∧
  get_feature_args DFamily.dmd ⟨Option.none, Option.none, Option.none, Option.none, ["bogus"]⟩ ("..".data) =
    Except.error (("Unknown D compiler feature(s) selected: ") ++ String.intercalate (", ") ["bogus"]) :=
  ⟨(c7_unknown_keys DFamily.dmd ⟨Option.some true, Option.none, Option.none, Option.none, []⟩ ("..".data)).1 rfl,
   (c7_unknown_keys DFamily.dmd ⟨Option.none, Option.none, Option.none, Option.none, ["bogus"]⟩ ("..".data)).2 (by decide)⟩

/-- C4 counterexample: the claim states that every GNU-style family maps
optimization levels 0 and g to the empty fragment; the gnu table maps g to
[-Og], so the claim as stated is false at the gnu family, level g. -/
theorem c4_gnu_g_counterexample :
  gnu_optimization_args OptLevel.og = [("-Og".data)] ∧ gnu_optimization_args OptLevel.og ≠ [] := by
  decide

/-- C4 amended: all three optimization tables map level 0 to the empty
fragment; the llvm-style (ldc) and reference-style (dmd) tables also map g
to empty, while the gnu table maps g to [-Og]; and the reference-style
table maps each of 1, 2, 3, s to the same single generic optimize flag
[-O] with no per-level distinction. -/
theorem c4_optimization_tables :
  gnu_optimization_args OptLevel.o0 = [] ∧ gnu_optimization_args OptLevel.og = [("-Og".data)] ∧
  ldc_optimization_args OptLevel.o0 = [] ∧ ldc_optimization_args OptLevel.og = [] ∧
  dmd_optimization_args OptLevel.o0 = [] ∧ dmd_optimization_args OptLevel.og = [] ∧
  dmd_optimization_args OptLevel.o1 = [("-O".data)] ∧ dmd_optimization_args OptLevel.o2 = [("-O".data)] ∧
  dmd_optimization_args OptLevel.o3 = [("-O".data)] ∧ dmd_optimization_args OptLevel.os = [("-O".data)] := by
  decide

/-- C5 counterexample: the claim states that every family returns the empty
vector on Windows and macOS; LLVMDCompiler returns the relocation-model
flag on Windows, and the dmd-like mixin returns -fPIC on macOS. -/
theorem c5_pic_counterexample :
  llvmd_get_pic_args Platform.windows = [("-relocation-model=pic".data)] ∧
  llvmd_get_pic_args Platform.windows ≠ [] ∧
  dmdLike_get_pic_args Platform.osx = [("-fPIC".data)] ∧
  dmdLike_get_pic_args Platform.osx ≠ [] := by
  decide

/-- C5 amended: the GNU-like mixin suppresses PIC flags exactly on Windows
and macOS and returns [-fPIC] elsewhere; the dmd-like mixin and the base D
compiler suppress them exactly on Windows (returning [-fPIC] elsewhere,
macOS included); LLVMDCompiler returns [-relocation-model=pic] on every
platform. -/
theorem c5_pic_args :
  ∀ p : Platform,
    (gnuLike_get_pic_args p = [] ↔ (p = Platform.osx ∨ p = Platform.windows)) ∧
    (dmdLike_get_pic_args p = [] ↔ p = Platform.windows) ∧
    (dcompiler_get_pic_args p = [] ↔ p = Platform.windows) ∧
    (gnuLike_get_pic_args p = [] ∨ gnuLike_get_pic_args p = [("-fPIC".data)]) ∧
    (dmdLike_get_pic_args p = [] ∨ dmdLike_get_pic_args p = [("-fPIC".data)]) ∧
    (dcompiler_get_pic_args p = [] ∨ dcompiler_get_pic_args p = [("-fPIC".data)]) ∧
    llvmd_get_pic_args p = [("-relocation-model=pic".data)] := by
  intro p
  cases p <;> decide

/-- C6: the claim says the color-diagnostics query returns the color
fragment exactly when the version satisfies at least 4.9.0, for every
GNU-family compiler including the GNU D front end. GnuCompiler (gnu.py)
does behave that way, but GnuDCompiler.get_colorout_args (d.py) evaluates
the gated call and discards its result, returning the empty vector for
every version and mode — a missing return, contradicting the evident
intent of its own version gate. This theorem evaluates both functions at
the failing input (version 9.1, mode always). -/
theorem c6_colorout_code_bug :
  gnu_get_colorout_args [9, 1] ColorMode.always = [("-fdiagnostics-color=always".data)] ∧
  verGE [9, 1] [4, 9] = true ∧
  gnuD_get_colorout_args [9, 1] ColorMode.always = [] ∧
  (∀ (v : List Nat) (c : ColorMode), gnuD_get_colorout_args v c = []) :=
  ⟨by decide, by decide, by decide, fun _ _ => rfl⟩

/-- C10: C-runtime selection returns the empty vector on every non-Windows
host; on Windows each explicit crt value yields its fixed single
-mscrtlib token independent of build type, while from_buildtype yields
empty for plain, the debug runtime for debug, the release runtime for
debugoptimized, release and minsize, and an error for custom. -/
theorem c10_crt_args :
  (∀ (crt : CrtVal) (bt : Buildtype),
    get_crt_args Platform.other crt bt = Except.ok [] ∧ get_crt_args Platform.osx crt bt = Except.ok []) ∧
  (∀ bt : Buildtype,
    get_crt_args Platform.windows CrtVal.cnone bt = Except.ok [("-mscrtlib=".data)] ∧
    get_crt_args Platform.windows CrtVal.md bt = Except.ok [("-mscrtlib=msvcrt".data)] ∧
    get_crt_args Platform.windows CrtVal.mdd bt = Except.ok [("-mscrtlib=msvcrtd".data)] ∧
    get_crt_args Platform.windows CrtVal.mt bt = Except.ok [("-mscrtlib=libcmt".data)] ∧
    get_crt_args Platform.windows CrtVal.mtd bt = Except.ok [("-mscrtlib=libcmtd".data)]) ∧
  get_crt_args Platform.windows CrtVal.from_buildtype Buildtype.plain = Except.ok [] ∧
  get_crt_args Platform.windows CrtVal.from_buildtype Buildtype.debug = Except.ok (mscrt_argsD CrtVal.mdd) ∧
  get_crt_args Platform.windows CrtVal.from_buildtype Buildtype.debugoptimized = Except.ok (mscrt_argsD CrtVal.md) ∧
  get_crt_args Platform.windows CrtVal.from_buildtype Buildtype.release = Except.ok (mscrt_argsD CrtVal.md) ∧
  get_crt_args Platform.windows CrtVal.from_buildtype Buildtype.minsize = Except.ok (mscrt_argsD CrtVal.md) ∧
  get_crt_args Platform.windows CrtVal.from_buildtype Buildtype.custom = Except.error ("Requested C runtime based on buildtype, but buildtype is \"custom\".") := by
  refine ⟨?_, ?_, rfl, rfl, rfl, rfl, rfl, rfl⟩
  · intro crt bt
    exact ⟨rfl, rfl⟩
  · intro bt
    exact ⟨rfl, rfl, rfl, rfl, rfl⟩
